import Mathlib

/-!
Verification of the agentic SEO content-factory pipeline.

This file gives a shallow embedding, in Lean 4, of the parts of the Python
source that the verified properties concern:

* `src/lambdas/ingest_raw/seo_rules.py` — slug generation, keyword density,
  content validation (`SEOValidator`);
* `src/lambdas/render_html/schemas.py` — the pydantic record types
  (`Business`, `SEOMetadata`, `InternalLink`, `PageSpec`, `QualityFeedback`)
  and their construction-time validation;
* `src/lambdas/agent_qc/app.py` — `combine_assessments` and the duplicate
  skipping QC batch loop of `lambda_handler`;
* `src/lambdas/common/bedrock_client.py` — the `invoke_model` retry loop.

Strings are modelled as `List Char` (Python `str` restricted to its ASCII
behaviour, which is all the source relies on), floats as `ℚ`, machine calls
(S3, the Bedrock network endpoint) as explicit environments passed in, and
raising Python code as `Option`/`Except` results.
-/

/-! ## Python string primitives (ASCII semantics) -/

/-- The characters matched by Python's `str.split()` and by `\s` in `re`
(ASCII range): space, tab, newline, carriage return, vertical tab, form feed. -/
def pyIsSpace (c : Char) : Bool :=
  c = ' ' || c = '\t' || c = '\n' || c = '\r' || c = '\x0b' || c = '\x0c'

/-- Python `str.lower` on one character (ASCII range). -/
def pyLowerChar (c : Char) : Char :=
  if 'A' ≤ c ∧ c ≤ 'Z' then Char.ofNat (c.toNat + 32) else c

/-- Python `str.upper` on one character (ASCII range). -/
def pyUpperChar (c : Char) : Char :=
  if 'a' ≤ c ∧ c ≤ 'z' then Char.ofNat (c.toNat - 32) else c

/-- Python `str.lower` (ASCII range). -/
def pyLower (s : List Char) : List Char := s.map pyLowerChar

/-- Python `str.strip()`: remove leading and trailing whitespace. -/
def pyStrip (s : List Char) : List Char :=
  ((s.dropWhile pyIsSpace).reverse.dropWhile pyIsSpace).reverse

/-- Python `str.title()` on one character, given whether the previous
character was alphabetic. -/
def pyTitleChar (prevAlpha : Bool) (c : Char) : Char :=
  if c.isAlpha then (if prevAlpha then pyLowerChar c else pyUpperChar c) else c

def pyTitleAux (prevAlpha : Bool) : List Char → List Char
  | [] => []
  | c :: cs => pyTitleChar prevAlpha c :: pyTitleAux c.isAlpha cs

/-- Python `str.title()` (ASCII range): the first character of every
alphabetic run is upper-cased, the rest lower-cased. -/
def pyTitle (s : List Char) : List Char := pyTitleAux false s

/-- Split a list at every maximal run of characters satisfying `p`
(Python `re.split` on a character-class-plus pattern): the chunks between
runs, in order, including empty chunks at the ends. `inRun` records whether
the previously seen character belonged to a separator run. -/
def splitRunsAux (p : Char → Bool) (inRun : Bool) (acc : List Char) :
    List Char → List (List Char)
  | [] => [acc.reverse]
  | c :: cs =>
    if p c then
      if inRun then splitRunsAux p true acc cs
      else acc.reverse :: splitRunsAux p true [] cs
    else splitRunsAux p false (c :: acc) cs

def splitRuns (p : Char → Bool) (s : List Char) : List (List Char) :=
  splitRunsAux p false [] s

/-- Python `str.split()` with no argument: the maximal whitespace-free words,
with no empty entries. -/
def pySplitWS (s : List Char) : List (List Char) :=
  (splitRuns pyIsSpace s).filter (fun w => w ≠ [])

/-- Python `str.split(sep)` for a non-empty separator `sep`: splits at each
non-overlapping occurrence of `sep`, scanning left to right. -/
def pySplitOnAux (sep : List Char) (fuel : Nat) (acc : List Char) :
    List Char → List (List Char)
  | [] => [acc.reverse]
  | c :: cs =>
    match fuel with
    | 0 => [acc.reverse]
    | fuel + 1 =>
      if sep.isPrefixOf (c :: cs) then
        acc.reverse :: pySplitOnAux sep fuel [] (cs.drop (sep.length - 1))
      else pySplitOnAux sep fuel (c :: acc) cs

/-- `pySplitOnAux` consumes at least one character per step, so `s.length`
fuel never runs out. -/
def pySplitOn (sep s : List Char) : List (List Char) :=
  pySplitOnAux sep s.length [] s

/-- Python `str.count(sub)` for non-empty `sub`: number of non-overlapping
occurrences, scanning left to right. -/
def pyCountAux (n : List Char) (fuel : Nat) : List Char → Nat
  | [] => 0
  | c :: cs =>
    match fuel with
    | 0 => 0
    | fuel + 1 =>
      if n.isPrefixOf (c :: cs) then 1 + pyCountAux n fuel (cs.drop (n.length - 1))
      else pyCountAux n fuel cs

/-- Python `str.count(sub)` (`"".count("") = 1`, and in general an empty
`sub` is found at every position including the end). -/
def pyCount (hay n : List Char) : Nat :=
  if n = [] then hay.length + 1 else pyCountAux n hay.length hay

/-- Python `sub in s`: substring containment. -/
def isSubstr (n : List Char) : List Char → Bool
  | [] => n.isEmpty
  | c :: cs => n.isPrefixOf (c :: cs) || isSubstr n cs

/-- Replace every maximal run of characters satisfying `p` by the single
character `r` (Python `re.sub` with a `X+` pattern and one-character
replacement). -/
def collapseRunsAux (p : Char → Bool) (r : Char) (inRun : Bool) :
    List Char → List Char
  | [] => []
  | c :: cs =>
    if p c then
      if inRun then collapseRunsAux p r true cs
      else r :: collapseRunsAux p r true cs
    else c :: collapseRunsAux p r false cs

def collapseRuns (p : Char → Bool) (r : Char) (s : List Char) : List Char :=
  collapseRunsAux p r false s

/-- Python `str.strip(ch)` for one character: remove it from both ends. -/
def stripChar (ch : Char) (s : List Char) : List Char :=
  ((s.dropWhile (· = ch)).reverse.dropWhile (· = ch)).reverse

/-- Keep only the first occurrence of each element (Python
`dict.fromkeys` de-duplication). -/
def dedupFirstAux {α} [DecidableEq α] (seen : List α) : List α → List α
  | [] => []
  | x :: xs =>
    if x ∈ seen then dedupFirstAux seen xs
    else x :: dedupFirstAux (x :: seen) xs

def dedupFirst {α} [DecidableEq α] (l : List α) : List α := dedupFirstAux [] l

/-! ## Python numeric primitives -/

/-- Python `round(x)` to an integer: round half to even. -/
def pyRoundInt (x : ℚ) : ℤ :=
  let f := ⌊x⌋
  let r := x - f
  if r < 1/2 then f
  else if r > 1/2 then f + 1
  else if 2 ∣ f then f else f + 1

/-- Python `round(x, 3)`: round to 3 decimal places, half to even. -/
def pyRound3 (q : ℚ) : ℚ := (pyRoundInt (q * 1000) : ℚ) / 1000

/-! ## SEO rules engine (`src/lambdas/ingest_raw/seo_rules.py`) -/

/-- The character class `[a-z0-9\s-]` kept by `generate_slug`'s first
`re.sub`. -/
def slugKeepChar (c : Char) : Bool :=
  (decide ('a' ≤ c) && decide (c ≤ 'z')) || c.isDigit || pyIsSpace c
    || decide (c = '-')

/-- `SEOValidator.generate_slug`: join name-category-city with hyphens,
lower-case, strip `[^a-z0-9\s-]`, collapse whitespace runs to hyphens,
collapse hyphen runs, strip outer hyphens, truncate to 57 chars + `"..."`
when longer than 60. -/
def generateSlug (businessName businessCategory city : List Char) : List Char :=
  let slug := businessName ++ '-' :: (businessCategory ++ '-' :: city)
  let slug := pyLower slug
  let slug := slug.filter slugKeepChar
  let slug := collapseRuns pyIsSpace '-' slug
  let slug := collapseRuns (fun c => c = '-') '-' slug
  let slug := stripChar '-' slug
  if slug.length > 60 then slug.take 57 ++ ('.' :: '.' :: '.' :: []) else slug

/-- `SEOValidator.calculate_keyword_density`: case-insensitive substring
count of the keyword over the whitespace word count of the content. -/
def calculateKeywordDensity (content keyword : List Char) : ℚ :=
  let contentLower := pyLower content
  let keywordLower := pyLower keyword
  let totalWords := (pySplitWS contentLower).length
  if totalWords = 0 then 0
  else (pyCount contentLower keywordLower : ℚ) / (totalWords : ℚ)

/-- `PageContent` (`src/lambdas/render_html/schemas.py`): no length
constraints are enforced at construction. -/
structure PageContent where
  introduction : List Char
  main_content : List Char
  services_section : Option (List Char) := none
  location_section : Option (List Char) := none
  conclusion : List Char
deriving DecidableEq

/-- `Business` (`src/lambdas/render_html/schemas.py`), holding the values
after pydantic validation and field cleaning. -/
structure Business where
  business_id : List Char
  name : List Char
  category : List Char
  address : List Char
  city : List Char
  state : List Char
  zip_code : List Char
  phone : Option (List Char) := none
  website : Option (List Char) := none
  email : Option (List Char) := none
  description : Option (List Char) := none
  rating : Option ℚ := none
  review_count : Option ℤ := none
deriving DecidableEq

/-- The transition-word list of `SEOValidator._check_content_flow`. -/
def transitionWords : List (List Char) :=
  ["however", "moreover", "furthermore", "additionally", "also",
   "therefore", "consequently"].map String.toList

/-- `SEOValidator._check_content_flow`. `none` models the `ValueError`
raised by `min(lengths)`/`max(lengths)` on an empty `lengths` list. -/
def checkContentFlow (content : PageContent) : Option Bool :=
  let sections := [content.introduction, content.main_content, content.conclusion]
  let hasTransitions :=
    sections.any (fun s => transitionWords.any (fun w => isSubstr w (pyLower s)))
  let paragraphs := pySplitOn ('\n' :: '\n' :: []) content.main_content
  if paragraphs.length < 3 then some false
  else
    let lengths :=
      (paragraphs.filter (fun p => pyStrip p ≠ [])).map
        (fun p => (pySplitWS p).length)
    match lengths with
    | [] => none
    | a :: rest =>
      let mn := rest.foldl min a
      let mx := rest.foldl max a
      let hasVariety := decide ((mx / 10 + 1) - mn / 10 ≥ 2)
      some (hasTransitions && hasVariety)

/-- The sentence-ending class `[.!?]` of `_check_sentence_variety`. -/
def sentencePunct (c : Char) : Bool := c = '.' || c = '!' || c = '?'

/-- `SEOValidator._check_sentence_variety`. The Python float factors 0.7 and
1.3 are modelled as the exact rationals 7/10 and 13/10. -/
def checkSentenceVariety (content : List Char) : Bool :=
  let sentences := splitRuns sentencePunct content
  let sentenceLengths :=
    (sentences.filter (fun s => pyStrip s ≠ [])).map
      (fun s => (pySplitWS s).length)
  if sentenceLengths.length < 5 then false
  else
    let avg : ℚ := (sentenceLengths.sum : ℚ) / (sentenceLengths.length : ℚ)
    let shortCount :=
      (sentenceLengths.filter (fun l => (l : ℚ) < avg * (7/10))).length
    let longCount :=
      (sentenceLengths.filter (fun l => (l : ℚ) > avg * (13/10))).length
    decide (shortCount > 0) && decide (longCount > 0)

/-- The stop-word set of `SEOValidator.__init__`. -/
def stopWords : List (List Char) :=
  ["a", "an", "and", "are", "as", "at", "be", "by", "for", "from",
   "has", "he", "in", "is", "it", "its", "of", "on", "that", "the",
   "to", "was", "will", "with", "this", "but", "they", "have",
   "had", "what", "said", "each", "which", "she", "do", "how", "their"
  ].map String.toList

/-- The sliding 3-word windows of `_check_repetition`, each joined by a
single space. -/
def windows3 : List (List Char) → List (List Char)
  | a :: b :: c :: rest => (a ++ ' ' :: (b ++ ' ' :: c)) :: windows3 (b :: c :: rest)
  | _ => []

/-- `SEOValidator._check_repetition`. -/
def checkRepetition (content : List Char) : Bool :=
  let words := pySplitWS (pyLower content)
  let phrases :=
    (windows3 words).filter (fun ph => !(stopWords.any (fun sw => isSubstr sw ph)))
  let maxRepetitions := (phrases.map (fun ph => phrases.count ph)).foldl max 0
  decide (maxRepetitions ≤ 2)

/-- `SEOValidator.validate_content`: the named boolean checks, in the order
the Python code inserts them. `none` models the uncaught `ValueError`
escaping from `_check_content_flow`. -/
def validateContent (content : PageContent) (business : Business) :
    Option (List (String × Bool)) :=
  let mainWords := (pySplitWS content.main_content).length
  let fullContent :=
    pyLower (content.introduction ++ ' ' :: (content.main_content ++ ' ' :: content.conclusion))
  match checkContentFlow content with
  | none => none
  | some flows =>
    some [
      ("word_count", decide (mainWords ≥ 800)),
      ("has_introduction", decide (content.introduction.length ≥ 100)),
      ("has_conclusion", decide (content.conclusion.length ≥ 100)),
      ("content_flows", flows),
      ("mentions_business_name", isSubstr (pyLower business.name) fullContent),
      ("mentions_category", isSubstr (pyLower business.category) fullContent),
      ("mentions_location",
        isSubstr (pyLower business.city) fullContent
          || isSubstr (pyLower business.state) fullContent),
      ("varied_sentence_length", checkSentenceVariety content.main_content),
      ("no_repetitive_phrases", checkRepetition content.main_content),
      ("includes_address",
        [pyLower business.city, pyLower business.state, business.zip_code].any
          (fun loc => isSubstr loc fullContent))]

/-! ## Record validation layer (`src/lambdas/render_html/schemas.py`) -/

/-- The `zip_code` field pattern `^\d{5}(-\d{4})?$`. -/
def zipOk (z : List Char) : Bool :=
  (decide (z.length = 5) && z.all Char.isDigit)
    || (decide (z.length = 10) && (z.take 5).all Char.isDigit
        && decide (z.get? 5 = some '-') && (z.drop 6).all Char.isDigit)

/-- A character of the local part of the `email` pattern
`[a-zA-Z0-9._%+-]`. -/
def emailLocalChar (c : Char) : Bool :=
  c.isAlpha || c.isDigit || c == '.' || c == '_' || c == '%' || c == '+' || c == '-'

/-- A character of the domain part of the `email` pattern `[a-zA-Z0-9.-]`. -/
def emailDomChar (c : Char) : Bool :=
  c.isAlpha || c.isDigit || c == '.' || c == '-'

/-- The `email` field pattern `^[a-zA-Z0-9._%+-]+@[a-zA-Z0-9.-]+\.[a-zA-Z]{2,}$`:
a full match exists exactly when the string splits as local `@` domain with
some dot in the domain whose suffix is alphabetic of length at least 2. -/
def emailOk (s : List Char) : Bool :=
  match pySplitOn ('@' :: []) s with
  | [lp, dom] =>
    !lp.isEmpty && lp.all emailLocalChar
      && (List.range dom.length).any (fun k =>
        decide (1 ≤ k) && decide (dom.get? k = some '.')
          && decide (dom.length - (k + 1) ≥ 2)
          && (dom.take k).all emailDomChar
          && (dom.drop (k + 1)).all Char.isAlpha)
  | _ => false

/-- Modelled from the spec: pydantic's `HttpUrl` check for the optional
`website` field is not part of this repository; the spec requires only
"a well-formed URL when present", modelled as an `http(s)://` scheme
followed by a non-empty remainder. -/
def httpUrlOk (s : List Char) : Bool :=
  ("http://".toList.isPrefixOf s && decide (s.length > 7))
    || ("https://".toList.isPrefixOf s && decide (s.length > 8))

/-- The raw keyword values handed to `Business(...)` before validation. -/
structure RawBusiness where
  business_id : List Char
  name : List Char
  category : List Char
  address : List Char
  city : List Char
  state : List Char
  zip_code : List Char
  phone : Option (List Char) := none
  website : Option (List Char) := none
  email : Option (List Char) := none
  description : Option (List Char) := none
  rating : Option ℚ := none
  review_count : Option ℤ := none

/-- The per-field constraint violations pydantic reports for a
`Business(...)` call, in field declaration order. -/
def businessErrs (r : RawBusiness) : List String :=
  (if 1 ≤ r.name.length ∧ r.name.length ≤ 200 then [] else ["name"])
    ++ (if 1 ≤ r.category.length ∧ r.category.length ≤ 100 then [] else ["category"])
    ++ (if 5 ≤ r.address.length ∧ r.address.length ≤ 500 then [] else ["address"])
    ++ (if 1 ≤ r.city.length ∧ r.city.length ≤ 100 then [] else ["city"])
    ++ (if 2 ≤ r.state.length ∧ r.state.length ≤ 50 then [] else ["state"])
    ++ (if zipOk r.zip_code then [] else ["zip_code"])
    ++ (match r.website with
        | some w => if httpUrlOk w then [] else ["website"]
        | none => [])
    ++ (match r.email with
        | some e => if emailOk e then [] else ["email"]
        | none => [])
    ++ (match r.description with
        | some d => if d.length ≤ 1000 then [] else ["description"]
        | none => [])
    ++ (match r.rating with
        | some q => if 0 ≤ q ∧ q ≤ 5 then [] else ["rating"]
        | none => [])
    ++ (match r.review_count with
        | some n => if 0 ≤ n then [] else ["review_count"]
        | none => [])

/-- `Business(...)` construction: every pydantic field constraint is checked
on the raw value (errors collected per field, as pydantic enumerates them),
then the `clean_text_fields` / `clean_address` validators normalize the text
fields of the successful result. -/
def mkBusiness (r : RawBusiness) : Except (List String) Business :=
  if (businessErrs r).isEmpty then
    .ok {
      business_id := r.business_id
      name := pyTitle (pyStrip r.name)
      category := pyTitle (pyStrip r.category)
      address := pyStrip r.address
      city := pyTitle (pyStrip r.city)
      state := pyTitle (pyStrip r.state)
      zip_code := r.zip_code
      phone := r.phone
      website := r.website
      email := r.email
      description := r.description
      rating := r.rating
      review_count := r.review_count }
  else .error (businessErrs r)

/-- `SEOMetadata.clean_keywords`: strip and lower-case each keyword, drop
entries that are empty after stripping, de-duplicate keeping the first
occurrence (`dict.fromkeys`). -/
def cleanKeywords (v : List (List Char)) : List (List Char) :=
  dedupFirst ((v.filter (fun kw => pyStrip kw ≠ [])).map (fun kw => pyLower (pyStrip kw)))

/-- `SEOMetadata` holding post-validation values. -/
structure SEOMetadata where
  title : List Char
  meta_description : List Char
  h1 : List Char
  slug : List Char
  canonical_url : Option (List Char) := none
  keywords : List (List Char) := []
deriving DecidableEq

/-- `SEOMetadata(...)` construction: the `clean_seo_fields` validator
whitespace-normalizes `title`/`meta_description`/`h1`, `clean_keywords`
cleans the keyword list; no constraint can fail, so construction is total. -/
def mkSEOMetadata (title meta_description h1 slug : List Char)
    (canonical_url : Option (List Char)) (keywords : List (List Char)) :
    SEOMetadata :=
  { title := collapseRuns pyIsSpace ' ' (pyStrip title)
    meta_description := collapseRuns pyIsSpace ' ' (pyStrip meta_description)
    h1 := collapseRuns pyIsSpace ' ' (pyStrip h1)
    slug := slug
    canonical_url := canonical_url
    keywords := cleanKeywords keywords }

/-- `InternalLink`. -/
structure InternalLink where
  url : List Char
  anchor_text : List Char
  target_business_id : List Char
deriving DecidableEq

/-- `JSONLDSchema` (`address` and `aggregateRating` modelled as association
lists, standing for the Python string-keyed dictionaries). -/
structure JSONLDSchema where
  context : List Char := "https://schema.org".toList
  type : List Char := "LocalBusiness".toList
  name : List Char
  description : Option (List Char) := none
  address : List (List Char × List Char)
  telephone : Option (List Char) := none
  url : Option (List Char) := none
  email : Option (List Char) := none
  priceRange : Option (List Char) := none
  aggregateRating : Option (List (List Char × List Char)) := none
deriving DecidableEq

/-- `PageSpec` holding post-validation values. The `generated_at` wall-clock
timestamp (a `default_factory` with no constraint) is not modelled. -/
structure PageSpec where
  business : Business
  seo : SEOMetadata
  content : PageContent
  jsonld : JSONLDSchema
  internal_links : List InternalLink
  quality_score : Option ℚ := none

/-- The constraint violations pydantic reports for a `PageSpec(...)` call:
the `max_items=5` bound on `internal_links`, the `validate_no_self_links`
validator, and the `quality_score` range. -/
def pageSpecErrs (business : Business) (internal_links : List InternalLink)
    (quality_score : Option ℚ) : List String :=
  (if internal_links.length > 5 then ["internal_links: max_items"] else [])
    ++ (if internal_links.any
          (fun l => decide (l.target_business_id = business.business_id)) then
          ["internal_links: Cannot create self-referential internal links"]
        else [])
    ++ (match quality_score with
        | some q => if 0 ≤ q ∧ q ≤ 1 then [] else ["quality_score"]
        | none => [])

/-- `PageSpec(...)` construction. -/
def mkPageSpec (business : Business) (seo : SEOMetadata) (content : PageContent)
    (jsonld : JSONLDSchema) (internal_links : List InternalLink)
    (quality_score : Option ℚ) : Except (List String) PageSpec :=
  if (pageSpecErrs business internal_links quality_score).isEmpty then
    .ok { business := business, seo := seo, content := content, jsonld := jsonld
          internal_links := internal_links, quality_score := quality_score }
  else .error (pageSpecErrs business internal_links quality_score)

/-- `QualityFeedback` holding post-validation values. -/
structure QualityFeedback where
  quality_score : ℚ
  passed_checks : List (List Char) := []
  failed_checks : List (List Char) := []
  suggestions : List (List Char) := []
  retry_count : ℤ := 0
  needs_regeneration : Bool := false
deriving DecidableEq

/-- `QualityFeedback(...)` construction: `quality_score` must lie in
`[0, 1]` and `retry_count` must be non-negative; the `round_score`
validator then rounds the score to 3 decimal places. -/
def mkQualityFeedback (quality_score : ℚ) (passed failed sugg : List (List Char))
    (retry : ℤ) (needsRegen : Bool) : Except (List String) QualityFeedback :=
  let errs :=
    (if 0 ≤ quality_score ∧ quality_score ≤ 1 then [] else ["quality_score"])
    ++ (if 0 ≤ retry then [] else ["retry_count"])
  if errs.isEmpty then
    .ok { quality_score := pyRound3 quality_score
          passed_checks := passed
          failed_checks := failed
          suggestions := sugg
          retry_count := retry
          needs_regeneration := needsRegen }
  else .error errs

/-! ## Quality control combination (`src/lambdas/agent_qc/app.py`) -/

/-- `combine_assessments(ai_feedback, seo_violations)`. The function starts
from a fresh `QualityFeedback(...)` built from the incoming (already
validated, hence in-range) feedback — whose `round_score` validator re-rounds
the score and whose omitted `retry_count` argument defaults to 0 — then
appends `"SEO: "`-prefixed violations to the failed checks, applies the
`min(0.1 * n, 0.4)` score penalty floored at 0.0 together with up to 3 fix
suggestions when violations exist, and finally forces
`needs_regeneration := true` when score < 0.7, more than 2 violations, or
more than 5 failed checks. -/
def combineAssessments (aiFeedback : QualityFeedback)
    (seoViolations : List (List Char)) : QualityFeedback :=
  let combined : QualityFeedback :=
    { quality_score := pyRound3 aiFeedback.quality_score
      passed_checks := aiFeedback.passed_checks
      failed_checks := aiFeedback.failed_checks
      suggestions := aiFeedback.suggestions
      retry_count := 0
      needs_regeneration := aiFeedback.needs_regeneration }
  let combined :=
    { combined with
      failed_checks :=
        combined.failed_checks ++ seoViolations.map (fun v => "SEO: ".toList ++ v) }
  let combined :=
    if seoViolations.length > 0 then
      { combined with
        quality_score :=
          max 0 (combined.quality_score
            - min ((1/10 : ℚ) * (seoViolations.length : ℚ)) (4/10))
        suggestions :=
          combined.suggestions
            ++ (seoViolations.take 3).map (fun v => "Fix SEO violation: ".toList ++ v) }
    else combined
  if combined.quality_score < 7/10 ∨ seoViolations.length > 2
      ∨ combined.failed_checks.length > 5 then
    { combined with needs_regeneration := true }
  else combined

/-! ## QC batch loop (`lambda_handler` of `src/lambdas/agent_qc/app.py`).
The per-page S3/Bedrock effects are abstracted into a `PageRecord`
environment: what `generated_pages[idx]` holds and what the quality-check
call returns for it. -/

/-- The raw field values of one quality-feedback payload before
`QualityFeedback(**quality_feedback)` validation. -/
structure RawQualityFeedback where
  quality_score : ℚ
  passed_checks : List (List Char) := []
  failed_checks : List (List Char) := []
  suggestions : List (List Char) := []
  retry_count : ℤ := 0
  needs_regeneration : Bool := false

/-- `QualityFeedback(**quality_feedback)` applied to a raw payload. -/
def validateQualityFeedback (r : RawQualityFeedback) :
    Except (List String) QualityFeedback :=
  mkQualityFeedback r.quality_score r.passed_checks r.failed_checks
    r.suggestions r.retry_count r.needs_regeneration

/-- One entry of `generated_pages` together with the outcome of the
quality-check call for it (`none` models `quality_feedback` being falsy). -/
structure PageRecord where
  business_id : List Char
  generation_successful : Bool
  page_spec_present : Bool
  seo_violations : List (List Char) := []
  quality_feedback : Option RawQualityFeedback := none

/-- One entry appended to `qc_results`. -/
structure QCResult where
  business_id : List Char
  qc_successful : Bool
  reason : Option String := none
  quality_feedback : Option QualityFeedback := none
  seo_violations : Option (List (List Char)) := none
  needs_regeneration : Option Bool := none

/-- The accumulator state of the QC loop. -/
structure QCState where
  processed : List (List Char) := []
  qc_results : List QCResult := []
  successful_qc : Nat := 0
  failed_qc : Nat := 0
  pages_needing_regeneration : Nat := 0

/-- One iteration of the QC loop body: duplicate business ids are skipped
before any counter or result is touched; otherwise the id is recorded and
the page follows the generation-failed / no-page-spec / feedback paths. -/
def qcStep (st : QCState) (page : PageRecord) : QCState :=
  if page.business_id ∈ st.processed then st
  else
    let st := { st with processed := page.business_id :: st.processed }
    if !page.generation_successful then
      { st with
        qc_results := st.qc_results
          ++ [{ business_id := page.business_id, qc_successful := false
                reason := some "generation_failed" }]
        failed_qc := st.failed_qc + 1 }
    else if !page.page_spec_present then
      { st with
        qc_results := st.qc_results
          ++ [{ business_id := page.business_id, qc_successful := false
                reason := some "no_page_spec" }]
        failed_qc := st.failed_qc + 1 }
    else
      match page.quality_feedback with
      | some raw =>
        match validateQualityFeedback raw with
        | .ok qf =>
          let combined := combineAssessments qf page.seo_violations
          let needsRegen :=
            decide (combined.quality_score < 7/10) || combined.needs_regeneration
              || decide (page.seo_violations.length > 2)
          { st with
            qc_results := st.qc_results
              ++ [{ business_id := page.business_id, qc_successful := true
                    quality_feedback := some combined
                    seo_violations := some page.seo_violations
                    needs_regeneration := some needsRegen }]
            successful_qc := st.successful_qc + 1
            pages_needing_regeneration :=
              st.pages_needing_regeneration + (if needsRegen then 1 else 0) }
        | .error _ =>
          { st with
            qc_results := st.qc_results
              ++ [{ business_id := page.business_id, qc_successful := false
                    reason := some "qc_validation_failed" }]
            failed_qc := st.failed_qc + 1 }
      | none =>
        { st with
          qc_results := st.qc_results
            ++ [{ business_id := page.business_id, qc_successful := false
                  reason := some "qc_failed" }]
          failed_qc := st.failed_qc + 1 }

/-- The whole QC loop over a batch of generated pages. -/
def runQC (batch : List PageRecord) : QCState := batch.foldl qcStep {}

/-- Remove every occurrence of a business id after its first, keeping the
first occurrence of each (given ids already `seen`). -/
def dedupPagesAux (seen : List (List Char)) : List PageRecord → List PageRecord
  | [] => []
  | p :: ps =>
    if p.business_id ∈ seen then dedupPagesAux seen ps
    else p :: dedupPagesAux (p.business_id :: seen) ps

def dedupPages (batch : List PageRecord) : List PageRecord :=
  dedupPagesAux [] batch

/-! ## Bedrock retry loop (`BedrockClient.invoke_model` of
`src/lambdas/common/bedrock_client.py`). The network is abstracted as an
environment mapping the attempt number to what the call produces. -/

/-- What one `bedrock-runtime invoke_model` call yields: a parsed response
with text content, a `ClientError` with an error code, or any other raised
exception (including the `ValueError` for a response without content). -/
inductive BedrockResult where
  | content (text : List Char) (outputTokens : Nat)
  | apiError (code msg : List Char)
  | failure (msg : List Char)
deriving DecidableEq

/-- The outcome of `invoke_model`: returned text, the trace's
`retry_count` and `errors`, the `time.sleep` durations performed (seconds),
and how many API attempts were made. -/
structure InvokeOutcome where
  text : Option (List Char)
  retry_count : Nat
  errors : List (List Char)
  sleeps : List Nat
  attempts : Nat
deriving DecidableEq

/-- The error codes `invoke_model` retries on. -/
def retryableCodes : List (List Char) :=
  ["ThrottlingException", "ServiceUnavailableException"].map String.toList

/-- The `for attempt in range(max_retries + 1)` loop of `invoke_model`,
over the remaining attempt numbers. On success the trace records
`retry_count = attempt`; when the loop ends without success (exhausted or
broken out of), `retry_count = max_retries + 1`. A retryable `ClientError`
with attempts remaining sleeps `2 ** attempt + 1` seconds and continues, as
does any unexpected error; everything else breaks. -/
def invokeAux (resp : Nat → BedrockResult) (maxRetries : Nat) :
    List Nat → List (List Char) → List Nat → InvokeOutcome
  | [], errors, sleeps =>
    { text := none, retry_count := maxRetries + 1, errors := errors
      sleeps := sleeps, attempts := maxRetries + 1 }
  | attempt :: rest, errors, sleeps =>
    match resp attempt with
    | .content t _ =>
      { text := some t, retry_count := attempt, errors := errors
        sleeps := sleeps, attempts := attempt + 1 }
    | .apiError code msg =>
      let errors := errors
        ++ ["Bedrock API error: ".toList ++ code ++ " - ".toList ++ msg]
      if attempt < maxRetries ∧ code ∈ retryableCodes then
        invokeAux resp maxRetries rest errors (sleeps ++ [2 ^ attempt + 1])
      else
        { text := none, retry_count := maxRetries + 1, errors := errors
          sleeps := sleeps, attempts := attempt + 1 }
    | .failure msg =>
      let errors := errors ++ ["Unexpected error: ".toList ++ msg]
      if attempt < maxRetries then
        invokeAux resp maxRetries rest errors (sleeps ++ [2 ^ attempt + 1])
      else
        { text := none, retry_count := maxRetries + 1, errors := errors
          sleeps := sleeps, attempts := attempt + 1 }

/-- `invoke_model` with `max_retries` attempts allowed beyond the first. -/
def invokeModel (resp : Nat → BedrockResult) (maxRetries : Nat) : InvokeOutcome :=
  invokeAux resp maxRetries (List.range (maxRetries + 1)) [] []

/-! ## Helper lemmas -/

theorem charLe_iff_toNat (a b : Char) : a ≤ b ↔ a.toNat ≤ b.toNat := by
  rfl

theorem toNat_ofNat_valid (n : Nat) (h : n < 55296) : (Char.ofNat n).toNat = n := by
  unfold Char.ofNat
  rw [dif_pos (Or.inl h)]
  simp [Char.ofNatAux, Char.toNat, UInt32.toNat, BitVec.toNat_ofNatLt]

theorem pyLowerChar_not_upper {c : Char} (h : ¬('A' ≤ c ∧ c ≤ 'Z')) :
    pyLowerChar c = c := by
  simp [pyLowerChar, h]

theorem pyLowerChar_idem (c : Char) : pyLowerChar (pyLowerChar c) = pyLowerChar c := by
  by_cases h : 'A' ≤ c ∧ c ≤ 'Z'
  · have hz : c.toNat ≤ 90 := by
      have h6 := (charLe_iff_toNat c 'Z').mp h.2
      have h3 : Char.toNat 'Z' = 90 := by decide
      omega
    have hc : pyLowerChar c = Char.ofNat (c.toNat + 32) := by
      rw [pyLowerChar, if_pos h]
    rw [hc]
    apply pyLowerChar_not_upper
    intro hcon
    have ha : 65 ≤ c.toNat := by
      have h4 := (charLe_iff_toNat 'A' c).mp h.1
      have h5 : Char.toNat 'A' = 65 := by decide
      omega
    have h2 := (charLe_iff_toNat (Char.ofNat (c.toNat + 32)) 'Z').mp hcon.2
    rw [toNat_ofNat_valid (c.toNat + 32) (by omega)] at h2
    have h3 : Char.toNat 'Z' = 90 := by decide
    omega
  · rw [pyLowerChar_not_upper h, pyLowerChar_not_upper h]

theorem pyLower_idem (s : List Char) : pyLower (pyLower s) = pyLower s := by
  simp [pyLower, List.map_map]
  intro c _
  exact pyLowerChar_idem c

theorem pyLower_length (s : List Char) : (pyLower s).length = s.length := by
  simp [pyLower]

theorem dedupFirstAux_spec {α} [DecidableEq α] :
    ∀ (l seen : List α), (dedupFirstAux seen l).Nodup
      ∧ (∀ x ∈ dedupFirstAux seen l, x ∉ seen ∧ x ∈ l) := by
  intro l
  induction l with
  | nil => intro seen; simp [dedupFirstAux]
  | cons a as ih =>
    intro seen
    by_cases h : a ∈ seen
    · rw [dedupFirstAux, if_pos h]
      refine ⟨(ih seen).1, ?_⟩
      intro x hx
      exact ⟨((ih seen).2 x hx).1, List.mem_cons_of_mem a ((ih seen).2 x hx).2⟩
    · rw [dedupFirstAux, if_neg h]
      refine ⟨?_, ?_⟩
      · rw [List.nodup_cons]
        refine ⟨?_, (ih (a :: seen)).1⟩
        intro hmem
        exact ((ih (a :: seen)).2 a hmem).1 (List.mem_cons_self a seen)
      · intro x hx
        rcases List.mem_cons.mp hx with rfl | hx2
        · exact ⟨h, List.mem_cons_self x as⟩
        · have h2 := (ih (a :: seen)).2 x hx2
          exact ⟨fun hs => h2.1 (List.mem_cons_of_mem a hs), List.mem_cons_of_mem a h2.2⟩

theorem dedupFirst_nodup {α} [DecidableEq α] (l : List α) : (dedupFirst l).Nodup :=
  (dedupFirstAux_spec l []).1

theorem dedupFirst_subset {α} [DecidableEq α] (l : List α) :
    ∀ x ∈ dedupFirst l, x ∈ l := fun x hx => ((dedupFirstAux_spec l []).2 x hx).2

theorem combineAssessments_eq (qf : QualityFeedback) (v : List (List Char)) :
    combineAssessments qf v =
      { quality_score :=
          if v.length > 0 then
            max 0 (pyRound3 qf.quality_score - min ((1/10 : ℚ) * (v.length : ℚ)) (4/10))
          else pyRound3 qf.quality_score
        passed_checks := qf.passed_checks
        failed_checks := qf.failed_checks ++ v.map (fun s => "SEO: ".toList ++ s)
        suggestions :=
          if v.length > 0 then
            qf.suggestions ++ (v.take 3).map (fun s => "Fix SEO violation: ".toList ++ s)
          else qf.suggestions
        retry_count := 0
        needs_regeneration :=
          if ((if v.length > 0 then
                max 0 (pyRound3 qf.quality_score - min ((1/10 : ℚ) * (v.length : ℚ)) (4/10))
              else pyRound3 qf.quality_score) < 7/10
              ∨ v.length > 2
              ∨ (qf.failed_checks ++ v.map (fun s => "SEO: ".toList ++ s)).length > 5)
          then true else qf.needs_regeneration } := by
  by_cases hv : v.length > 0
  · simp only [combineAssessments, if_pos hv]
    split <;> rfl
  · simp only [combineAssessments, if_neg hv]
    split <;> rfl

theorem combineAssessments_quality_score (qf : QualityFeedback) (v : List (List Char)) :
    (combineAssessments qf v).quality_score =
      if v.length > 0 then
        max 0 (pyRound3 qf.quality_score - min ((1/10 : ℚ) * (v.length : ℚ)) (4/10))
      else pyRound3 qf.quality_score := by
  rw [combineAssessments_eq]

theorem combineAssessments_failed_checks (qf : QualityFeedback) (v : List (List Char)) :
    (combineAssessments qf v).failed_checks =
      qf.failed_checks ++ v.map (fun s => "SEO: ".toList ++ s) := by
  rw [combineAssessments_eq]

/-! ## Claim theorems -/

/-- Claim C1 (amended): after `combine_assessments`, the regeneration flag is
forced to `true` exactly when the combined quality score is below the 0.7
threshold used by the code, or more than 2 SEO violations are present, or
more than 5 failed checks are accumulated; otherwise the incoming flag is
returned as supplied. -/
theorem combine_assessments_regeneration_gate (qf : QualityFeedback) (v : List (List Char)) :
    (combineAssessments qf v).needs_regeneration =
      if ((combineAssessments qf v).quality_score < 7/10 ∨ v.length > 2
          ∨ (combineAssessments qf v).failed_checks.length > 5)
      then true else qf.needs_regeneration := by
  conv_lhs => rw [combineAssessments_eq]
  rw [combineAssessments_quality_score, combineAssessments_failed_checks]

/-- An incoming feedback with quality score 0.75 and no violations. -/
def qfBorder : QualityFeedback := { quality_score := 3/4 }

/-- Claim C1 (counterexample to the claim as stated): a combined quality score of
0.75 is below the claimed canonical 0.8 threshold, yet `combine_assessments`
leaves the regeneration flag `false` — the code gates on 0.7, not 0.8. -/
theorem combine_gate_is_0_7_not_0_8 :
    (combineAssessments qfBorder []).quality_score < 8/10
      ∧ (combineAssessments qfBorder []).needs_regeneration = false := by
  have h : pyRound3 (3/4 : ℚ) = 3/4 := by norm_num [pyRound3, pyRoundInt]
  rw [combineAssessments_eq]
  constructor
  · simp [qfBorder, h]
    norm_num
  · simp [qfBorder, h]
    norm_num

/-- Claim C3: for a valid incoming quality score `s` (in range and already rounded
to 3 decimals, as every constructed `QualityFeedback` score is), a non-empty
violation list of length `n` makes `combine_assessments` subtract
`min(0.1 * n, 0.4)` from `s` flooring at 0, the combined score is never
negative, and an empty violation list leaves the score unchanged. -/
theorem combine_assessments_seo_penalty (qf : QualityFeedback) (v : List (List Char))
    (h0 : 0 ≤ qf.quality_score) (_hle : qf.quality_score ≤ 1)
    (hr : pyRound3 qf.quality_score = qf.quality_score) :
    (v ≠ [] → (combineAssessments qf v).quality_score
        = max 0 (qf.quality_score - min ((1/10 : ℚ) * (v.length : ℚ)) (4/10)))
    ∧ 0 ≤ (combineAssessments qf v).quality_score
    ∧ (v = [] → (combineAssessments qf v).quality_score = qf.quality_score) := by
  have hq := combineAssessments_quality_score qf v
  refine ⟨?_, ?_, ?_⟩
  · intro hv
    rw [hq, if_pos (List.length_pos.mpr hv), hr]
  · rw [hq]
    split
    · exact le_max_left 0 _
    · rw [hr]; exact h0
  · intro hv
    subst hv
    rw [hq]
    simp [hr]

/-- A 0.9-score feedback. -/
def qfNine : QualityFeedback := { quality_score := 9/10 }

/-- Three SEO violations. -/
def seoViol3 : List (List Char) :=
  ["missing title".toList, "short meta".toList, "bad slug".toList]

/-- Claim C3 (witness): at score 0.9 with 3 violations the penalty formula applies
and the combined score is exactly 0.600. -/
theorem combine_assessments_seo_penalty_witness :
    (0:ℚ) ≤ (9/10 : ℚ)
    ∧ (combineAssessments qfNine seoViol3).quality_score
        = max 0 ((9/10 : ℚ) - min ((1/10 : ℚ) * ((seoViol3.length : ℕ) : ℚ)) (4/10))
    ∧ (combineAssessments qfNine seoViol3).quality_score = 3/5 := by
  have happly := (combine_assessments_seo_penalty qfNine seoViol3
    (by norm_num [qfNine]) (by norm_num [qfNine])
    (by norm_num [qfNine, pyRound3, pyRoundInt])).1 (by decide)
  refine ⟨by norm_num, ?_, ?_⟩
  · simpa [qfNine] using happly
  · rw [happly]
    norm_num [qfNine, seoViol3, min_def, max_def]

/-- A Bedrock environment that throttles every attempt. -/
def throttleOnlyEnv : Nat → BedrockResult :=
  fun _ => .apiError "ThrottlingException".toList "Rate exceeded".toList

/-- A Bedrock environment that denies access on every attempt. -/
def accessDeniedEnv : Nat → BedrockResult :=
  fun _ => .apiError "AccessDeniedException".toList "access denied".toList

/-- Claim C2 (counterexample to the claim as stated): with `maxRetries=3` and an
always-throttling backend, 4 attempts are made and `retry_count` is 4 with 4
recorded errors, but only three sleeps happen — 2, 3 and 5 seconds — because
the final attempt breaks out of the loop without sleeping; the claimed
schedule 2, 3, 5, 9 never occurs. -/
theorem invoke_model_throttle_sleeps_2_3_5 :
    (invokeModel throttleOnlyEnv 3).attempts = 4
      ∧ (invokeModel throttleOnlyEnv 3).retry_count = 4
      ∧ (invokeModel throttleOnlyEnv 3).errors.length = 4
      ∧ (invokeModel throttleOnlyEnv 3).sleeps = [2, 3, 5]
      ∧ (invokeModel throttleOnlyEnv 3).sleeps ≠ [2, 3, 5, 9] := by
  decide

/-- Claim C2 (amended): when every attempt of `invoke_model` with `maxRetries=3`
throttles, exactly 4 attempts are made with backoff delays of 2, 3 and 5
seconds between them (the `2^attempt + 1` sleep is skipped after the final
attempt), the trace ends with `retry_count = 4` and all four error messages;
an access-denied error on attempt 0 aborts after exactly 1 attempt with no
sleep. -/
theorem invoke_model_retry_schedule :
    (∀ (resp : Nat → BedrockResult) (m : Nat → List Char),
      (∀ i, i ≤ 3 → resp i = .apiError "ThrottlingException".toList (m i)) →
      invokeModel resp 3 =
        { text := none
          retry_count := 4
          errors :=
            ["Bedrock API error: ".toList ++ "ThrottlingException".toList
                ++ " - ".toList ++ m 0,
              "Bedrock API error: ".toList ++ "ThrottlingException".toList
                ++ " - ".toList ++ m 1,
              "Bedrock API error: ".toList ++ "ThrottlingException".toList
                ++ " - ".toList ++ m 2,
              "Bedrock API error: ".toList ++ "ThrottlingException".toList
                ++ " - ".toList ++ m 3]
          sleeps := [2, 3, 5]
          attempts := 4 })
    ∧ (∀ (resp : Nat → BedrockResult) (msg : List Char),
        resp 0 = .apiError "AccessDeniedException".toList msg →
        (invokeModel resp 3).attempts = 1 ∧ (invokeModel resp 3).sleeps = []) := by
  constructor
  · intro resp m h
    have h0 := h 0 (by omega)
    have h1 := h 1 (by omega)
    have h2 := h 2 (by omega)
    have h3 := h 3 (by omega)
    have hmem : "ThrottlingException".toList ∈ retryableCodes := by decide
    show invokeAux resp 3 (List.range 4) [] [] = _
    rw [show List.range 4 = [0, 1, 2, 3] from rfl]
    simp only [invokeAux, h0, h1, h2, h3, hmem, and_true, true_and]
    norm_num
  · intro resp msg h
    have hnm : "AccessDeniedException".toList ∉ retryableCodes := by decide
    have heq : invokeModel resp 3 =
        { text := none, retry_count := 4
          errors := ["Bedrock API error: ".toList ++ "AccessDeniedException".toList
            ++ " - ".toList ++ msg]
          sleeps := [], attempts := 1 } := by
      show invokeAux resp 3 (List.range 4) [] [] = _
      rw [show List.range 4 = [0, 1, 2, 3] from rfl]
      simp only [invokeAux, h]
      rw [if_neg (by intro hc; exact hnm hc.2)]
      norm_num
    rw [heq]
    exact ⟨rfl, rfl⟩

/-- Claim C2 (witness): the amended theorem applied to the concrete
always-throttling and access-denied environments. -/
theorem invoke_model_retry_schedule_witness :
    invokeModel throttleOnlyEnv 3 =
      { text := none
        retry_count := 4
        errors :=
          ["Bedrock API error: ".toList ++ "ThrottlingException".toList
              ++ " - ".toList ++ "Rate exceeded".toList,
            "Bedrock API error: ".toList ++ "ThrottlingException".toList
              ++ " - ".toList ++ "Rate exceeded".toList,
            "Bedrock API error: ".toList ++ "ThrottlingException".toList
              ++ " - ".toList ++ "Rate exceeded".toList,
            "Bedrock API error: ".toList ++ "ThrottlingException".toList
              ++ " - ".toList ++ "Rate exceeded".toList]
        sleeps := [2, 3, 5]
        attempts := 4 }
    ∧ (invokeModel accessDeniedEnv 3).attempts = 1
    ∧ (invokeModel accessDeniedEnv 3).sleeps = [] :=
  ⟨invoke_model_retry_schedule.1 throttleOnlyEnv
      (fun _ => "Rate exceeded".toList) (fun _ _ => rfl),
    invoke_model_retry_schedule.2 accessDeniedEnv "access denied".toList rfl⟩

/-- Claim C4: `generate_slug` always returns a slug of length at most 60 (a slug
of more than 60 characters is cut to its first 57 characters plus `"..."`),
and on `("Test Restaurant", "Restaurant", "Test City")` it returns
`"test-restaurant-restaurant-test-city"`. -/
theorem generate_slug_spec :
    (∀ n c ci : List Char, (generateSlug n c ci).length ≤ 60)
    ∧ generateSlug "Test Restaurant".toList "Restaurant".toList "Test City".toList
        = "test-restaurant-restaurant-test-city".toList := by
  constructor
  · intro n c ci
    simp only [generateSlug]
    split
    · rename_i h
      simp [List.length_append, List.length_take]
    · rename_i h
      omega
  · decide

/-- A successfully constructed `PageSpec` retains its links and none of
them is self-referential. -/
theorem mkPageSpec_ok_implies (b : Business) (seo : SEOMetadata) (ct : PageContent)
    (j : JSONLDSchema) (links : List InternalLink) (q : Option ℚ) (ps : PageSpec)
    (hok : mkPageSpec b seo ct j links q = .ok ps) :
    ps.internal_links = links
      ∧ ∀ l ∈ links, l.target_business_id ≠ b.business_id := by
  have hnil : pageSpecErrs b links q = [] := by
    by_contra hne
    rw [mkPageSpec, if_neg (by simpa using hne)] at hok
    exact absurd hok (by simp)
  have hall : ∀ l ∈ links, l.target_business_id ≠ b.business_id := by
    intro l hl heq
    have hB : (links.any fun l => decide (l.target_business_id = b.business_id)) = true :=
      List.any_eq_true.mpr ⟨l, hl, by simp [heq]⟩
    have : pageSpecErrs b links q ≠ [] := by
      simp only [pageSpecErrs, hB, if_true]
      simp
    exact this hnil
  rw [mkPageSpec, if_pos (by simpa using hnil)] at hok
  cases hok
  exact ⟨rfl, hall⟩

/-- Claim C5: `PageSpec` construction fails with a validation error when
some internal link targets the owning business id, succeeds retaining all
links when (together with the other field constraints) no link does, and
hence no constructed `PageSpec` holds a self-referential internal link. -/
theorem page_spec_no_self_links :
    (∀ (b : Business) (seo : SEOMetadata) (ct : PageContent) (j : JSONLDSchema)
        (links : List InternalLink) (q : Option ℚ),
      (∃ l ∈ links, l.target_business_id = b.business_id) →
        ∃ e, mkPageSpec b seo ct j links q = .error e)
    ∧ (∀ (b : Business) (seo : SEOMetadata) (ct : PageContent) (j : JSONLDSchema)
        (links : List InternalLink) (q : Option ℚ),
      (∀ l ∈ links, l.target_business_id ≠ b.business_id) →
      links.length ≤ 5 →
      (∀ s, q = some s → 0 ≤ s ∧ s ≤ 1) →
        ∃ ps, mkPageSpec b seo ct j links q = .ok ps ∧ ps.internal_links = links)
    ∧ (∀ (b : Business) (seo : SEOMetadata) (ct : PageContent) (j : JSONLDSchema)
        (links : List InternalLink) (q : Option ℚ) (ps : PageSpec),
      mkPageSpec b seo ct j links q = .ok ps →
        ∀ l ∈ ps.internal_links, l.target_business_id ≠ b.business_id) := by
  refine ⟨?_, ?_, ?_⟩
  · intro b seo ct j links q ⟨l, hl, heq⟩
    have hB : (links.any fun l => decide (l.target_business_id = b.business_id)) = true :=
      List.any_eq_true.mpr ⟨l, hl, by simp [heq]⟩
    have hne : ¬(pageSpecErrs b links q).isEmpty = true := by
      simp only [pageSpecErrs, hB, if_true]
      simp
    rw [mkPageSpec, if_neg hne]
    exact ⟨_, rfl⟩
  · intro b seo ct j links q hself hlen hq
    have hnil : pageSpecErrs b links q = [] := by
      have hA : (if links.length > 5 then ["internal_links: max_items"] else []) = [] :=
        if_neg (by omega)
      have hB : ¬(links.any fun l => decide (l.target_business_id = b.business_id)) = true := by
        intro hc
        rw [List.any_eq_true] at hc
        rcases hc with ⟨l, hl, hd⟩
        exact hself l hl (by simpa using hd)
      rcases hqq : q with _ | s
      · simp only [pageSpecErrs, hA, if_neg hB]
        simp
      · simp only [pageSpecErrs, hA, if_neg hB, if_pos (hq s hqq)]
        simp
    rw [mkPageSpec, if_pos (by simpa using hnil)]
    exact ⟨_, rfl, rfl⟩
  · intro b seo ct j links q ps hok l hl
    obtain ⟨hlinks, hall⟩ := mkPageSpec_ok_implies b seo ct j links q ps hok
    rw [hlinks] at hl
    exact hall l hl

/-- A raw `Business(...)` call with fixed valid text fields, parameterised
by the zip code and rating under test. -/
def rawBiz (zip : List Char) (rating : Option ℚ) : RawBusiness :=
  { business_id := "test".toList
    name := "Test".toList
    category := "Test".toList
    address := "123 Test St".toList
    city := "Test".toList
    state := "CA".toList
    zip_code := zip
    rating := rating }

/-- Claim C7: `Business` construction succeeds only when the zip code
matches `DDDDD` or `DDDDD-DDDD` and any rating lies in `[0, 5]`; the
concrete zip codes `"90210"`/`"90210-1234"` and ratings 0.0/2.5/5.0 are
accepted while `"9021"`, `"90210-123"`, `"abcde"`, `""`, -1.0, 5.1 and 10.0
are rejected. -/
theorem business_zip_rating_validation :
    (∀ r : RawBusiness, (mkBusiness r).isOk = true →
        zipOk r.zip_code = true ∧ ∀ q, r.rating = some q → 0 ≤ q ∧ q ≤ 5)
    ∧ ((mkBusiness (rawBiz "90210".toList none)).isOk = true
        ∧ (mkBusiness (rawBiz "90210-1234".toList none)).isOk = true)
    ∧ ((mkBusiness (rawBiz "9021".toList none)).isOk = false
        ∧ (mkBusiness (rawBiz "90210-123".toList none)).isOk = false
        ∧ (mkBusiness (rawBiz "abcde".toList none)).isOk = false
        ∧ (mkBusiness (rawBiz "".toList none)).isOk = false)
    ∧ ((mkBusiness (rawBiz "90210".toList (some 0))).isOk = true
        ∧ (mkBusiness (rawBiz "90210".toList (some (5/2)))).isOk = true
        ∧ (mkBusiness (rawBiz "90210".toList (some 5))).isOk = true)
    ∧ ((mkBusiness (rawBiz "90210".toList (some (-1)))).isOk = false
        ∧ (mkBusiness (rawBiz "90210".toList (some (51/10)))).isOk = false
        ∧ (mkBusiness (rawBiz "90210".toList (some 10))).isOk = false) := by
  refine ⟨?_, ⟨by decide, by decide⟩, ⟨by decide, by decide, by decide, by decide⟩,
    ⟨?_, ?_, ?_⟩, ⟨?_, ?_, ?_⟩⟩
  · intro r hok
    have hnil : businessErrs r = [] := by
      by_contra hne
      rw [mkBusiness, if_neg (by simpa using hne)] at hok
      simp [Except.isOk, Except.toBool] at hok
    constructor
    · cases hbool : zipOk r.zip_code
      · exfalso
        have hcon : businessErrs r ≠ [] := by
          simp only [businessErrs, hbool]
          simp [List.append_eq_nil]
        exact hcon hnil
      · rfl
    · intro q hq
      by_cases hb : 0 ≤ q ∧ q ≤ 5
      · exact hb
      · exfalso
        have hcon : businessErrs r ≠ [] := by
          simp only [businessErrs, hq, if_neg hb]
          simp [List.append_eq_nil]
        exact hcon hnil
  · have h : businessErrs (rawBiz "90210".toList (some 0)) = [] := by
      simp only [businessErrs, rawBiz]
      rw [if_pos (show (0:ℚ) ≤ 0 ∧ (0:ℚ) ≤ 5 by norm_num)]
      decide
    rw [mkBusiness, if_pos (show _ by rw [h]; rfl)]
    rfl
  · have h : businessErrs (rawBiz "90210".toList (some (5/2))) = [] := by
      simp only [businessErrs, rawBiz]
      rw [if_pos (show (0:ℚ) ≤ 5/2 ∧ (5/2:ℚ) ≤ 5 by norm_num)]
      decide
    rw [mkBusiness, if_pos (show _ by rw [h]; rfl)]
    rfl
  · have h : businessErrs (rawBiz "90210".toList (some 5)) = [] := by
      simp only [businessErrs, rawBiz]
      rw [if_pos (show (0:ℚ) ≤ 5 ∧ (5:ℚ) ≤ 5 by norm_num)]
      decide
    rw [mkBusiness, if_pos (show _ by rw [h]; rfl)]
    rfl
  · have h : businessErrs (rawBiz "90210".toList (some (-1))) = ["rating"] := by
      simp only [businessErrs, rawBiz]
      rw [if_neg (show ¬((0:ℚ) ≤ -1 ∧ (-1:ℚ) ≤ 5) by norm_num)]
      decide
    rw [mkBusiness, if_neg (show _ by rw [h]; decide)]
    rfl
  · have h : businessErrs (rawBiz "90210".toList (some (51/10))) = ["rating"] := by
      simp only [businessErrs, rawBiz]
      rw [if_neg (show ¬((0:ℚ) ≤ 51/10 ∧ (51/10:ℚ) ≤ 5) by norm_num)]
      decide
    rw [mkBusiness, if_neg (show _ by rw [h]; decide)]
    rfl
  · have h : businessErrs (rawBiz "90210".toList (some 10)) = ["rating"] := by
      simp only [businessErrs, rawBiz]
      rw [if_neg (show ¬((0:ℚ) ≤ 10 ∧ (10:ℚ) ≤ 5) by norm_num)]
      decide
    rw [mkBusiness, if_neg (show _ by rw [h]; decide)]
    rfl

/-- Claim C7 (witness): the only-if direction applied to a concrete
accepted business. -/
theorem business_zip_rating_validation_witness :
    zipOk (rawBiz "90210".toList none).zip_code = true
      ∧ ∀ q, (rawBiz "90210".toList none).rating = some q → 0 ≤ q ∧ q ≤ 5 :=
  business_zip_rating_validation.1 (rawBiz "90210".toList none) (by decide)

def bizA : Business :=
  { business_id := "biz_001".toList
    name := "Test Restaurant".toList
    category := "Restaurant".toList
    address := "123 Main St".toList
    city := "Test City".toList
    state := "Ca".toList
    zip_code := "90210".toList }

def seoA : SEOMetadata :=
  { title := "Test Restaurant - Restaurant in Test City".toList
    meta_description := "A test restaurant page.".toList
    h1 := "Test Restaurant".toList
    slug := "test-restaurant".toList }

def contentA : PageContent :=
  { introduction := "Intro.".toList
    main_content := "Body.".toList
    conclusion := "End.".toList }

def jsonldA : JSONLDSchema :=
  { name := "Test Restaurant".toList
    address := [("streetAddress".toList, "123 Main St".toList)] }

def selfLink : InternalLink :=
  { url := "/biz_001".toList, anchor_text := "me".toList
    target_business_id := "biz_001".toList }

def otherLink : InternalLink :=
  { url := "/biz_002".toList, anchor_text := "other".toList
    target_business_id := "biz_002".toList }

/-- Claim C5 (witness): a concrete self-link is rejected and a concrete
foreign link is accepted and retained. -/
theorem page_spec_no_self_links_witness :
    (∃ e, mkPageSpec bizA seoA contentA jsonldA [selfLink] none = .error e)
    ∧ (∃ ps, mkPageSpec bizA seoA contentA jsonldA [otherLink] none = .ok ps
        ∧ ps.internal_links = [otherLink]) :=
  ⟨page_spec_no_self_links.1 bizA seoA contentA jsonldA [selfLink] none
      ⟨selfLink, by decide, by decide⟩,
    page_spec_no_self_links.2.1 bizA seoA contentA jsonldA [otherLink] none
      (by decide) (by decide) (fun s h => by simp at h)⟩

/-- Claim C6: `calculate_keyword_density` returns the case-insensitive
substring count of the keyword divided by the whitespace word count of the
content, and exactly 0.0 when the content has no words (in particular when
it is empty) or the keyword does not occur. -/
theorem calculate_keyword_density_spec :
    (∀ content keyword : List Char,
      (pySplitWS (pyLower content)).length ≠ 0 →
        calculateKeywordDensity content keyword
          = (pyCount (pyLower content) (pyLower keyword) : ℚ)
              / ((pySplitWS (pyLower content)).length : ℚ))
    ∧ (∀ content keyword : List Char,
        (pySplitWS (pyLower content)).length = 0 →
          calculateKeywordDensity content keyword = 0)
    ∧ (∀ keyword : List Char, calculateKeywordDensity [] keyword = 0)
    ∧ (∀ content keyword : List Char,
        pyCount (pyLower content) (pyLower keyword) = 0 →
          calculateKeywordDensity content keyword = 0) := by
  refine ⟨?_, ?_, ?_, ?_⟩
  · intro c k h
    simp [calculateKeywordDensity, h]
  · intro c k h
    simp [calculateKeywordDensity, h]
  · intro k
    simp [calculateKeywordDensity, pyLower, pySplitWS, splitRuns, splitRunsAux]
  · intro c k h
    simp only [calculateKeywordDensity, h]
    split
    · rfl
    · simp

/-- Claim C6 (witness): concrete densities, including the division
formula giving 2/3 and the absent-keyword and empty-content zeros. -/
theorem calculate_keyword_density_spec_witness :
    ((pySplitWS (pyLower "hello world hello".toList)).length ≠ 0
      ∧ calculateKeywordDensity "hello world hello".toList "Hello".toList
          = (pyCount (pyLower "hello world hello".toList) (pyLower "Hello".toList) : ℚ)
              / ((pySplitWS (pyLower "hello world hello".toList)).length : ℚ))
    ∧ calculateKeywordDensity "hello world hello".toList "Hello".toList = 2/3
    ∧ calculateKeywordDensity "".toList "test".toList = 0
    ∧ (pyCount (pyLower "hello world".toList) (pyLower "absent".toList) = 0
      ∧ calculateKeywordDensity "hello world".toList "absent".toList = 0) := by
  have h1 := calculate_keyword_density_spec.1 "hello world hello".toList "Hello".toList
    (by decide)
  refine ⟨⟨by decide, h1⟩, ?_, ?_, by decide, ?_⟩
  · rw [h1]
    rw [show pyCount (pyLower "hello world hello".toList) (pyLower "Hello".toList) = 2
      from by decide]
    rw [show (pySplitWS (pyLower "hello world hello".toList)).length = 3 from by decide]
    norm_num
  · exact calculate_keyword_density_spec.2.2.1 "test".toList
  · exact calculate_keyword_density_spec.2.2.2 "hello world".toList "absent".toList
      (by decide)

theorem qcStep_mem (st : QCState) (page : PageRecord)
    (h : page.business_id ∈ st.processed) : qcStep st page = st := by
  simp [qcStep, h]

theorem qcStep_processed (st : QCState) (page : PageRecord) :
    (qcStep st page).processed =
      if page.business_id ∈ st.processed then st.processed
      else page.business_id :: st.processed := by
  by_cases h : page.business_id ∈ st.processed
  · simp [qcStep_mem st page h, h]
  · simp only [qcStep, if_neg h]
    repeat (first | rfl | split)

theorem runQC_dedup_aux :
    ∀ (batch : List PageRecord) (st : QCState) (seen : List (List Char)),
      (∀ x, x ∈ st.processed ↔ x ∈ seen) →
      batch.foldl qcStep st = (dedupPagesAux seen batch).foldl qcStep st := by
  intro batch
  induction batch with
  | nil => intro st seen h; rfl
  | cons p ps ih =>
    intro st seen h
    by_cases hp : p.business_id ∈ seen
    · rw [dedupPagesAux, if_pos hp, List.foldl_cons, qcStep_mem st p ((h _).mpr hp)]
      exact ih st seen h
    · rw [dedupPagesAux, if_neg hp, List.foldl_cons, List.foldl_cons]
      apply ih
      intro x
      rw [qcStep_processed, if_neg (fun hc => hp ((h _).mp hc))]
      simp [List.mem_cons, h x]

/-- Claim C8: the QC loop processes only the first occurrence of each business id:
running the loop on a batch gives exactly the state obtained on the batch
with every later duplicate removed, and one step on an already-processed id
changes nothing — no result entry and no counter movement. -/
theorem qc_batch_skips_duplicates :
    (∀ batch : List PageRecord, runQC batch = runQC (dedupPages batch))
    ∧ (∀ (st : QCState) (page : PageRecord),
        page.business_id ∈ st.processed → qcStep st page = st) := by
  constructor
  · intro batch
    exact runQC_dedup_aux batch {} [] (fun x => Iff.rfl)
  · exact qcStep_mem

def dupState : QCState := { processed := ["dup".toList] }

def dupPage : PageRecord :=
  { business_id := "dup".toList, generation_successful := false
    page_spec_present := false }

/-- Claim C8 (witness): a duplicate-id page leaves a concrete QC state untouched. -/
theorem qc_batch_skips_duplicates_witness : qcStep dupState dupPage = dupState :=
  qc_batch_skips_duplicates.2 dupState dupPage (by decide)

/-- Claim C9: every keyword list a constructed `SEOMetadata` holds is duplicate
free, and each entry is non-empty and lower-cased; entries of the raw list
that are empty or whitespace-only are silently discarded — filtering them
away first changes nothing. -/
theorem clean_keywords_invariants :
    ∀ kws : List (List Char),
      (cleanKeywords kws).Nodup
      ∧ (∀ k ∈ cleanKeywords kws, k ≠ [] ∧ pyLower k = k)
      ∧ cleanKeywords kws = cleanKeywords (kws.filter (fun kw => pyStrip kw ≠ []))
      ∧ (mkSEOMetadata "T".toList "M".toList "H".toList "s".toList none kws).keywords
          = cleanKeywords kws := by
  intro kws
  refine ⟨dedupFirst_nodup _, ?_, ?_, rfl⟩
  · intro k hk
    have hmem := dedupFirst_subset _ k hk
    rcases List.mem_map.mp hmem with ⟨x, hx, rfl⟩
    have hxs := List.of_mem_filter hx
    have hne : pyStrip x ≠ [] := by simpa using hxs
    constructor
    · intro hnil
      apply hne
      have hlen := congrArg List.length hnil
      rw [pyLower_length] at hlen
      exact List.eq_nil_of_length_eq_zero hlen
    · exact pyLower_idem (pyStrip x)
  · simp [cleanKeywords, List.filter_filter]

def kwsEx : List (List Char) :=
  ["  Foo".toList, "".toList, "FOO".toList, "bar".toList, "  ".toList]

/-- Claim C9 (witness): on a concrete raw keyword list the cleaned entry `"foo"`
is retained once, non-empty and lower-cased. -/
theorem clean_keywords_invariants_witness :
    cleanKeywords kwsEx = ["foo".toList, "bar".toList]
      ∧ "foo".toList ≠ [] ∧ pyLower "foo".toList = "foo".toList :=
  ⟨by decide, (clean_keywords_invariants kwsEx).2.1 "foo".toList (by decide)⟩

def flowEdgeContent : PageContent :=
  { introduction := []
    main_content := '\n' :: '\n' :: '\n' :: '\n' :: []
    conclusion := [] }

def flowEdgeBusiness : Business :=
  { business_id := "b1".toList
    name := "Name".toList
    category := "Cat".toList
    address := "123 Street".toList
    city := "City".toList
    state := "St".toList
    zip_code := "90210".toList }

/-- Claim C10 (code-bug evidence): a `main_content` of two blank lines splits on
`"\n\n"` into 3 paragraphs that are all empty, `len(paragraphs) < 3` does
not short-circuit, the per-paragraph word-count list is empty, and
`min(lengths)` raises `ValueError` — so `_check_content_flow` and with it
`validate_content` fail instead of returning the check mapping. -/
theorem validate_content_crashes_on_blank_paragraphs :
    (pySplitOn ('\n' :: '\n' :: []) flowEdgeContent.main_content).length = 3
      ∧ ((pySplitOn ('\n' :: '\n' :: []) flowEdgeContent.main_content).all
          (fun p => decide (pyStrip p = []))) = true
      ∧ checkContentFlow flowEdgeContent = none
      ∧ validateContent flowEdgeContent flowEdgeBusiness = none := by
  refine ⟨by decide, by decide, by decide, by decide⟩
